import Mathlib

/-!
Verification of the SafePay Guardian transformation core.

This file gives a shallow embedding of the repository's payment-message
transformers (`server/transformers/mt103.ts`, `server/transformers/nacha.ts`),
the rule-based fraud scorer (`server/fraud-detection.ts`) and the field
extraction performed by the transform route (`server/routes.ts`), and proves
properties of these definitions.

Modelling conventions:
* JavaScript strings are modelled as `List Char`; `substring`, `trim`,
  `split`, `startsWith`, `includes`, `toLowerCase` and first-occurrence
  `replace` are modelled by the total functions below, which mirror the
  clamping behaviour of the JS originals (ASCII whitespace and case, which
  covers every string the repository's code compares against).
* JavaScript numbers are modelled as exact rationals `ℚ`.  Every comparison
  the fraud scorer performs is bounded away from the float rounding error of
  the catalog constants, so exact arithmetic decides every branch the same
  way the JS floats do.
* `parseInt` returns `Option ℤ`, `none` standing for `NaN`; `toFixed(2)` on
  `n / 100` for an integer `n` renders the exact value, which is what the JS
  double produces for every 10-digit NACHA amount.
* `Date.now()` / `new Date().toISOString()` are nondeterministic in the
  source; the converters take the rendered timestamp strings as explicit
  arguments (`nowMs`, `nowIso`, `today`).
-/

set_option maxRecDepth 20000

namespace SafePay

/-- JS strings, modelled as lists of characters. -/
abbrev Str := List Char

/-- Coerce a Lean string literal to the `List Char` model. -/
def s2l (s : String) : Str := s.data

/-- ASCII whitespace, the class `String.prototype.trim` strips on the
strings this repository manipulates (space, tab, newline, carriage return,
vertical tab, form feed). -/
def isWs (c : Char) : Bool :=
  c.toNat == 32 || c.toNat == 9 || c.toNat == 10 || c.toNat == 13
    || c.toNat == 11 || c.toNat == 12

/-- Model of `String.prototype.trim`. -/
def trim (s : Str) : Str :=
  ((s.dropWhile isWs).reverse.dropWhile isWs).reverse

/-- Model of `String.prototype.split(sep)` for a single-character separator;
like in JS, empty segments are kept and splitting the empty string yields
one empty segment. -/
def splitOnChar (sep : Char) : Str → List Str
  | [] => [[]]
  | c :: t =>
    if c == sep then [] :: splitOnChar sep t
    else
      match splitOnChar sep t with
      | [] => [[c]]
      | h :: t2 => (c :: h) :: t2

/-- Model of `String.prototype.substring(a, b)` for `a ≤ b` (the only way the
repository calls it): clamps to the string length instead of failing. -/
def jsSubstring (s : Str) (a b : ℕ) : Str := (s.drop a).take (b - a)

/-- Model of `String.prototype.includes`. -/
def strContains : Str → Str → Bool
  | [], pat => pat.isEmpty
  | c :: t, pat => List.isPrefixOf pat (c :: t) || strContains t pat

/-- Is the character an ASCII decimal digit (code points 48-57)? -/
def isDigitB (c : Char) : Bool := 48 ≤ c.toNat && c.toNat ≤ 57

/-- Is the character an ASCII capital letter (the regex class `[A-Z]`,
code points 65-90)? -/
def isUpperB (c : Char) : Bool := 65 ≤ c.toNat && c.toNat ≤ 90

/-- ASCII lower-casing of one character, the fragment of
`String.prototype.toLowerCase` exercised by the catalog keywords. -/
def toLowerChar (c : Char) : Char :=
  if isUpperB c then Char.ofNat (c.toNat + 32) else c

/-- Model of `String.prototype.toLowerCase` (ASCII fragment). -/
def toLower (s : Str) : Str := s.map toLowerChar

/-- Model of `str.replace(',', '.')`: JS `replace` with a string pattern
replaces only the first occurrence. -/
def replaceFirstComma : Str → Str
  | [] => []
  | c :: t => if c == ',' then '.' :: t else c :: replaceFirstComma t

/-- Model of `a || b` for a possibly-absent string: JS treats the empty
string as falsy. -/
def jsOrS (s : Str) (dflt : Str) : Str := if s.isEmpty then dflt else s

/-- Model of `o?.f || b`: an absent or empty string falls back to the default. -/
def jsOr (o : Option Str) (dflt : Str) : Str :=
  match o with
  | none => dflt
  | some s => jsOrS s dflt

/-- Model of `Array.prototype.indexOf` on the line array (returns the first
index holding an equal string; the transformers only call it on elements of
the array, so the not-found case cannot arise and is mapped to the length). -/
def jsIndexOf (lines : List Str) (x : Str) : ℕ := List.findIdx (· == x) lines

/-! ## Decimal parsing and rendering -/

/-- Big-endian decimal digits to a natural number (the accumulator form JS
uses when parsing a digit run). -/
def strToNat (s : Str) : ℕ := s.foldl (fun a c => 10 * a + (c.toNat - 48)) 0

/-- The ASCII digit for `m % 10`. -/
def digitChar (m : ℕ) : Char := Char.ofNat (48 + m % 10)

/-- Fuel-driven decimal rendering: `natStrAux fuel n` is the decimal form of
`n` whenever `n < fuel`. -/
def natStrAux : ℕ → ℕ → Str
  | 0, _ => []
  | fuel + 1, n =>
    if n < 10 then [digitChar n]
    else natStrAux fuel (n / 10) ++ [digitChar (n % 10)]

/-- Decimal rendering of a natural number, as JS number-to-string produces
for integral values. -/
def natStr (n : ℕ) : Str := natStrAux (n + 1) n

/-- Is the character an ASCII hexadecimal digit? -/
def isHexDigitB (c : Char) : Bool :=
  isDigitB c || (97 ≤ c.toNat && c.toNat ≤ 102) || (65 ≤ c.toNat && c.toNat ≤ 70)

/-- Value of an ASCII hexadecimal digit. -/
def hexVal (c : Char) : ℕ :=
  if isDigitB c then c.toNat - 48
  else if 97 ≤ c.toNat && c.toNat ≤ 102 then c.toNat - 87
  else c.toNat - 55

/-- Hexadecimal digit run to a natural number. -/
def strToNatHex (s : Str) : ℕ := s.foldl (fun a c => 16 * a + hexVal c) 0

/-- The unsigned part of `parseInt`: a leading `0x`/`0X` switches to base 16,
otherwise the maximal leading run of decimal digits is taken; no digits at
all is `NaN` (`none`). -/
def jsParseIntUnsigned (s : Str) : Option ℕ :=
  match s with
  | '0' :: x :: rest =>
    if x == 'x' || x == 'X' then
      let ds := rest.takeWhile isHexDigitB
      if ds.isEmpty then none else some (strToNatHex ds)
    else
      let ds := (('0' : Char) :: x :: rest).takeWhile isDigitB
      if ds.isEmpty then none else some (strToNat ds)
  | _ =>
    let ds := s.takeWhile isDigitB
    if ds.isEmpty then none else some (strToNat ds)

/-- Model of `parseInt(s)` (radix auto-detection as in JS): leading
whitespace is skipped, an optional sign is read, then a digit run;
`none` models `NaN`. -/
def jsParseInt (s : Str) : Option ℤ :=
  let t := s.dropWhile isWs
  match t with
  | '-' :: r => (jsParseIntUnsigned r).map (fun n => -(n : ℤ))
  | '+' :: r => (jsParseIntUnsigned r).map (fun n => (n : ℤ))
  | _ => (jsParseIntUnsigned t).map (fun n => (n : ℤ))

/-- Two-digit zero-padded rendering of `n < 100`. -/
def pad2 (n : ℕ) : Str := if n < 10 then '0' :: natStr n else natStr n

/-- Rendering of `(n / 100).toFixed(2)` for an integer number of cents `n`:
the JS double for `n / 100` rounds back to the exact value for every amount
a 10-digit NACHA field can carry, so `toFixed(2)` prints the exact
hundredths. -/
def toFixed2OfCents (n : ℤ) : Str :=
  if n < 0 then '-' :: (natStr ((-n).toNat / 100) ++ '.' :: pad2 ((-n).toNat % 100))
  else natStr (n.toNat / 100) ++ '.' :: pad2 (n.toNat % 100)

/-! ## MT103 transformer (`server/transformers/mt103.ts`) -/

/-- The `MT103Data` interface: fields start absent and are assigned by the
parser when the corresponding tag is found. -/
structure MT103Data where
  transactionReference : Option Str := none
  valueDate : Option Str := none
  currency : Option Str := none
  amount : Option Str := none
  orderingCustomer : Option Str := none
  beneficiary : Option Str := none
  remittanceInfo : Option Str := none
  detailsOfCharges : Option Str := none
deriving DecidableEq

/-- Is the character allowed in the amount group of the `:32A:` regex
character class `[\d,\.]`? -/
def isAmtChar (c : Char) : Bool := isDigitB c || c.toNat == 44 || c.toNat == 46

/-- One attempt of the `:32A:` regex `(\d{6})([A-Z]{3})([\d,\.]+)` at the
start of `s`: six digits, three capitals, then a maximal nonempty run of
digits, commas and periods. -/
def matchAt32A (s : Str) : Option (Str × Str × Str) :=
  let d := s.take 6
  let rest := s.drop 6
  let c := rest.take 3
  let a := (rest.drop 3).takeWhile isAmtChar
  if d.length == 6 && d.all isDigitB && c.length == 3
      && c.all isUpperB && !a.isEmpty
  then some (d, c, a) else none

/-- Unanchored leftmost search of the `:32A:` regex, as `String.match`
performs. -/
def search32A : Str → Option (Str × Str × Str)
  | [] => none
  | c :: t =>
    match matchAt32A (c :: t) with
    | some r => some r
    | none => search32A t

/-- Multi-line field collection: starting after the tagged line, append every
following line with a `\n` separator until a line that starts with `:`. -/
def collectCont : List Str → Str → Str
  | [], acc => acc
  | l :: t, acc =>
    if List.isPrefixOf [':'] l then acc else collectCont t (acc ++ '\n' :: l)

/-- The multi-line collection loop of the `:50K:`/`:59:`/`:70:` branches:
`lines.indexOf(line)` finds the first occurrence of the line's text, the tag
line contributes `substring(tagLen).trim()`, and following lines are appended
until one starts with `:`. -/
def collectMulti (lines : List Str) (line : Str) (tagLen : ℕ) : Str :=
  let idx := jsIndexOf lines line
  collectCont (lines.drop (idx + 1)) (trim (line.drop tagLen))

/-- The body of `parseMT103`'s per-line dispatch. -/
def processMT103Line (lines : List Str) (d : MT103Data) (line : Str) : MT103Data :=
  if List.isPrefixOf (s2l ( ":20:")) line then
    { d with transactionReference := some (trim (line.drop 4)) }
  else if List.isPrefixOf (s2l ( ":32A:")) line then
    match search32A (line.drop 5) with
    | some (dt, cur, amt) =>
      { d with valueDate := some dt, currency := some cur,
               amount := some (replaceFirstComma amt) }
    | none => d
  else if List.isPrefixOf (s2l ( ":50K:")) line then
    { d with orderingCustomer := some (trim (collectMulti lines line 5)) }
  else if List.isPrefixOf (s2l ( ":59:")) line then
    { d with beneficiary := some (trim (collectMulti lines line 4)) }
  else if List.isPrefixOf (s2l ( ":70:")) line then
    { d with remittanceInfo := some (trim (collectMulti lines line 4)) }
  else if List.isPrefixOf (s2l ( ":71A:")) line then
    { d with detailsOfCharges := some (trim (line.drop 5)) }
  else d

/-- `parseMT103`: split on newlines, trim every line, then dispatch on the
SWIFT tags. -/
def parseMT103 (content : Str) : MT103Data :=
  let lines := (splitOnChar '\n' content).map trim
  lines.foldl (processMT103Line lines) {}

/-- `convertMT103ToISO20022`: render the pacs.008 document; every
interpolated value is inserted verbatim (the source performs no XML
escaping).  `nowMs`, `nowIso` and `today` stand for `Date.now()`,
`new Date().toISOString()` and its date part. -/
def convertMT103ToISO20022 (nowMs nowIso today : Str) (data : MT103Data) : Str :=
  let msgId := jsOr data.transactionReference (s2l ( "MSG") ++ nowMs)
  let amount := jsOr data.amount (s2l ( "0.00"))
  let currency := jsOr data.currency (s2l ( "USD"))
  let senderLines := splitOnChar '\n' (jsOr data.orderingCustomer (s2l ( "Unknown Sender")))
  let senderName := jsOrS (senderLines.headD []) (s2l ( "Unknown"))
  let senderAddress := jsOrS (List.intercalate (s2l ( ", ")) (senderLines.drop 1)) (s2l ( "Unknown Address"))
  let beneficiaryLines := splitOnChar '\n' (jsOr data.beneficiary (s2l ( "Unknown Beneficiary")))
  let beneficiaryName := jsOrS (beneficiaryLines.headD []) (s2l ( "Unknown"))
  let beneficiaryAddress := jsOrS (List.intercalate (s2l ( ", ")) (beneficiaryLines.drop 1)) (s2l ( "Unknown Address"))
  s2l ( "<?xml version=\"1.0\" encoding=\"UTF-8\"?>\n<Document xmlns=\"urn:iso:std:iso:20022:tech:xsd:pacs.008.001.08\">\n  <FIToFICstmrCdtTrf>\n    <GrpHdr>\n      <MsgId>") ++ msgId
  ++ s2l ( "</MsgId>\n      <CreDtTm>") ++ nowIso
  ++ s2l ( "</CreDtTm>\n      <NbOfTxs>1</NbOfTxs>\n      <SttlmInf>\n        <SttlmMtd>INGA</SttlmMtd>\n      </SttlmInf>\n    </GrpHdr>\n    <CdtTrfTxInf>\n      <PmtId>\n        <InstrId>") ++ msgId
  ++ s2l ( "</InstrId>\n        <EndToEndId>") ++ msgId
  ++ s2l ( "</EndToEndId>\n      </PmtId>\n      <IntrBkSttlmAmt Ccy=\"") ++ currency
  ++ s2l ( "\">") ++ amount
  ++ s2l ( "</IntrBkSttlmAmt>\n      <IntrBkSttlmDt>") ++ jsOr data.valueDate today
  ++ s2l ( "</IntrBkSttlmDt>\n      <ChrgBr>") ++ jsOr data.detailsOfCharges (s2l ( "SHAR"))
  ++ s2l ( "</ChrgBr>\n      <Dbtr>\n        <Nm>") ++ senderName
  ++ s2l ( "</Nm>\n        <PstlAdr>\n          <AdrLine>") ++ senderAddress
  ++ s2l ( "</AdrLine>\n        </PstlAdr>\n      </Dbtr>\n      <Cdtr>\n        <Nm>") ++ beneficiaryName
  ++ s2l ( "</Nm>\n        <PstlAdr>\n          <AdrLine>") ++ beneficiaryAddress
  ++ s2l ( "</AdrLine>\n        </PstlAdr>\n      </Cdtr>\n      <RmtInf>\n        <Ustrd>") ++ jsOr data.remittanceInfo (s2l ( "Payment"))
  ++ s2l ( "</Ustrd>\n      </RmtInf>\n    </CdtTrfTxInf>\n  </FIToFICstmrCdtTrf>\n</Document>")

/-- `transformMT103`: parse then render. -/
def transformMT103 (nowMs nowIso today : Str) (content : Str) : Str × MT103Data :=
  let data := parseMT103 content
  (convertMT103ToISO20022 nowMs nowIso today data, data)

/-! ## NACHA transformer (`server/transformers/nacha.ts`) -/

/-- Batch-header fields extracted from a record-type-5 line. -/
structure NACHABatchHeader where
  companyName : Str
  companyId : Str
  standardEntryClass : Str
  entryDescription : Str
  effectiveEntryDate : Str
deriving DecidableEq

/-- Entry-detail fields extracted from a record-type-6 line. -/
structure NACHAEntryDetail where
  transactionCode : Str
  receivingDFI : Str
  checkDigit : Str
  dfiAccountNumber : Str
  amount : Str
  individualId : Str
  individualName : Str
  traceNumber : Str
deriving DecidableEq

/-- The `NACHAData` interface. -/
structure NACHAData where
  batchHeader : Option NACHABatchHeader := none
  entryDetail : Option NACHAEntryDetail := none
deriving DecidableEq

/-- Per-line dispatch of `parseNACHA`: `5` is a batch header, `6` an entry
detail, everything else is ignored.  (The source also extracts the unused
locals `serviceClassCode` and `companyDiscretionaryData`; they are dropped
here as dead code.) -/
def processNACHALine (d : NACHAData) (line : Str) : NACHAData :=
  if List.isPrefixOf ['5'] line then
    { d with batchHeader := some {
        companyName := trim (jsSubstring line 4 20),
        companyId := trim (jsSubstring line 40 50),
        standardEntryClass := trim (jsSubstring line 50 53),
        entryDescription := trim (jsSubstring line 53 63),
        effectiveEntryDate := trim (jsSubstring line 69 75) } }
  else if List.isPrefixOf ['6'] line then
    { d with entryDetail := some {
        transactionCode := jsSubstring line 1 3,
        receivingDFI := jsSubstring line 3 11,
        checkDigit := jsSubstring line 11 12,
        dfiAccountNumber := trim (jsSubstring line 12 29),
        amount := jsSubstring line 29 39,
        individualId := trim (jsSubstring line 39 54),
        individualName := trim (jsSubstring line 54 76),
        traceNumber := trim (jsSubstring line 79 94) } }
  else d

/-- `parseNACHA`: split on newlines, trim, drop empty lines, then dispatch on
the record type in the first character. -/
def parseNACHA (content : Str) : NACHAData :=
  let lines := ((splitOnChar '\n' content).map trim).filter (fun l => !l.isEmpty)
  lines.foldl processNACHALine {}

/-- The amount string the NACHA converter feeds to `parseInt`
(`data.entryDetail?.amount || '0'`). -/
def nachaAmountStr (data : NACHAData) : Str :=
  jsOr (data.entryDetail.map (·.amount)) (s2l ( "0"))

/-- The rendered amount of the NACHA converter:
`(parseInt(amountStr) / 100).toFixed(2)`, with `NaN` rendering as `"NaN"`. -/
def nachaRenderedAmount (data : NACHAData) : Str :=
  match jsParseInt (nachaAmountStr data) with
  | none => s2l ( "NaN")
  | some n => toFixed2OfCents n

/-- `convertNACHAToISO20022`: render the pacs.008 document for a NACHA batch;
as in the MT103 converter, all values are interpolated verbatim. -/
def convertNACHAToISO20022 (nowMs nowIso today : Str) (data : NACHAData) : Str :=
  let msgId := jsOr (data.entryDetail.map (·.traceNumber)) (s2l ( "MSG") ++ nowMs)
  let amount := nachaRenderedAmount data
  let companyName := jsOr (data.batchHeader.map (·.companyName)) (s2l ( "Unknown Company"))
  let individualName := jsOr (data.entryDetail.map (·.individualName)) (s2l ( "Unknown Individual"))
  let accountNumber := jsOr (data.entryDetail.map (·.dfiAccountNumber)) (s2l ( "Unknown"))
  let description := jsOr (data.batchHeader.map (·.entryDescription)) (s2l ( "Payment"))
  let companyId := jsOr (data.batchHeader.map (·.companyId)) (s2l ( "Unknown"))
  s2l ( "<?xml version=\"1.0\" encoding=\"UTF-8\"?>\n<Document xmlns=\"urn:iso:std:iso:20022:tech:xsd:pacs.008.001.08\">\n  <FIToFICstmrCdtTrf>\n    <GrpHdr>\n      <MsgId>") ++ msgId
  ++ s2l ( "</MsgId>\n      <CreDtTm>") ++ nowIso
  ++ s2l ( "</CreDtTm>\n      <NbOfTxs>1</NbOfTxs>\n      <SttlmInf>\n        <SttlmMtd>INDA</SttlmMtd>\n      </SttlmInf>\n    </GrpHdr>\n    <CdtTrfTxInf>\n      <PmtId>\n        <InstrId>") ++ msgId
  ++ s2l ( "</InstrId>\n        <EndToEndId>") ++ msgId
  ++ s2l ( "</EndToEndId>\n      </PmtId>\n      <IntrBkSttlmAmt Ccy=\"USD\">") ++ amount
  ++ s2l ( "</IntrBkSttlmAmt>\n      <IntrBkSttlmDt>") ++ jsOr (data.batchHeader.map (·.effectiveEntryDate)) today
  ++ s2l ( "</IntrBkSttlmDt>\n      <ChrgBr>SHAR</ChrgBr>\n      <Dbtr>\n        <Nm>") ++ companyName
  ++ s2l ( "</Nm>\n        <Id>\n          <OrgId>\n            <Othr>\n              <Id>") ++ companyId
  ++ s2l ( "</Id>\n            </Othr>\n          </OrgId>\n        </Id>\n      </Dbtr>\n      <DbtrAcct>\n        <Id>\n          <Othr>\n            <Id>") ++ companyId
  ++ s2l ( "</Id>\n          </Othr>\n        </Id>\n      </DbtrAcct>\n      <Cdtr>\n        <Nm>") ++ individualName
  ++ s2l ( "</Nm>\n      </Cdtr>\n      <CdtrAcct>\n        <Id>\n          <Othr>\n            <Id>") ++ accountNumber
  ++ s2l ( "</Id>\n          </Othr>\n        </Id>\n      </CdtrAcct>\n      <RmtInf>\n        <Ustrd>") ++ description
  ++ s2l ( "</Ustrd>\n      </RmtInf>\n    </CdtTrfTxInf>\n  </FIToFICstmrCdtTrf>\n</Document>")

/-- `transformNACHA`: parse then render. -/
def transformNACHA (nowMs nowIso today : Str) (content : Str) : Str × NACHAData :=
  let data := parseNACHA content
  (convertNACHAToISO20022 nowMs nowIso today data, data)

/-! ## Fraud scorer (`server/fraud-detection.ts`)

`analyzeFraud` below is the rule-based computation.  The AI block at the
end of the source runs only when OpenAI credentials are configured, and
even then `enhanceWithAI` always returns `adjustedScore: undefined` (both
branches of its ternary are `undefined`), so the returned score and flag are
always the rule-based ones; the block can only append externally produced
signal strings.  `analyzeFraudWithAI` models the full function with that
block explicit, taking the configuration flag and the external call's
outcome as arguments. -/

/-- One entry of the `SCAM_PATTERNS` catalog. -/
structure ScamPattern where
  name : Str
  triggerWords : List Str
  typicalAmountMin : ℕ
  typicalAmountMax : ℕ
  confidenceThreshold : ℚ
  description : Str
  preventionTips : List Str
deriving DecidableEq

/-- One element of the `detectedScams` result list. -/
structure DetectedScam where
  name : Str
  confidence : ℚ
  description : Str
  preventionTips : List Str
  matchedTriggers : List Str
deriving DecidableEq

/-- The `FraudResult` returned by `analyzeFraud`. -/
structure FraudResult where
  fraudScore : ℤ
  fraudFlag : Bool
  detectedScams : List DetectedScam
  signals : List Str
deriving DecidableEq

/-- The mutable state of `analyzeFraud`'s pattern loop: the running score and
the two output lists. -/
structure ScanState where
  fraudScore : ℚ
  detectedScams : List DetectedScam
  signals : List Str
deriving DecidableEq

/-- The static `SCAM_PATTERNS` catalog, in `Object.entries` order. -/
def SCAM_PATTERNS : List ScamPattern := [
  { name := s2l ( "IRS Tax Scam"),
    triggerWords := [s2l ( "irs"), s2l ( "tax"), s2l ( "penalty"), s2l ( "arrest"),
      s2l ( "warrant"), s2l ( "federal"), s2l ( "treasury"), s2l ( "tax debt")],
    typicalAmountMin := 500,
    typicalAmountMax := 10000,
    confidenceThreshold := 0.6,
    description := s2l ( "Scammers impersonate IRS agents demanding immediate payment for tax debts"),
    preventionTips := [
      s2l ( "The IRS never calls to demand immediate payment"),
      s2l ( "The IRS never threatens arrest over the phone"),
      s2l ( "The IRS contacts you by mail first"),
      s2l ( "Don\x27t provide personal information to unsolicited callers"),
      s2l ( "Call the IRS directly at 1-800-829-1040 if concerned")] },
  { name := s2l ( "Grandparent Emergency Scam"),
    triggerWords := [s2l ( "emergency"), s2l ( "urgent"), s2l ( "accident"), s2l ( "hospital"),
      s2l ( "bail"), s2l ( "grandchild"), s2l ( "grandson"), s2l ( "granddaughter"),
      s2l ( "help me"), s2l ( "don\x27t tell")],
    typicalAmountMin := 1000,
    typicalAmountMax := 15000,
    confidenceThreshold := 0.65,
    description := s2l ( "Scammers pretend to be grandchildren in emergency situations needing money"),
    preventionTips := [
      s2l ( "Always verify by calling your grandchild directly"),
      s2l ( "Ask questions only the real person would know"),
      s2l ( "Be suspicious of requests for secrecy"),
      s2l ( "Never wire money for emergencies"),
      s2l ( "Contact other family members to verify")] },
  { name := s2l ( "Social Security Suspension"),
    triggerWords := [s2l ( "social security"), s2l ( "ssn"), s2l ( "suspended"), s2l ( "fraud"),
      s2l ( "suspend"), s2l ( "social security number"), s2l ( "compromised"), s2l ( "freeze")],
    typicalAmountMin := 200,
    typicalAmountMax := 5000,
    confidenceThreshold := 0.7,
    description := s2l ( "Scammers claim Social Security number has been suspended due to suspicious activity"),
    preventionTips := [
      s2l ( "Social Security numbers are NEVER suspended"),
      s2l ( "SSA never calls to demand payment"),
      s2l ( "Contact SSA directly at 1-800-772-1213"),
      s2l ( "Don\x27t give SSN to unsolicited callers"),
      s2l ( "Report suspicious calls to SSA Inspector General")] },
  { name := s2l ( "Tech Support Scam"),
    triggerWords := [s2l ( "microsoft"), s2l ( "apple"), s2l ( "computer"), s2l ( "virus"),
      s2l ( "infected"), s2l ( "tech support"), s2l ( "security alert"), s2l ( "malware"),
      s2l ( "firewall")],
    typicalAmountMin := 200,
    typicalAmountMax := 2000,
    confidenceThreshold := 0.65,
    description := s2l ( "Scammers pose as tech support claiming computer issues that need immediate payment"),
    preventionTips := [
      s2l ( "Microsoft and Apple never cold-call customers"),
      s2l ( "Never give remote access to unsolicited callers"),
      s2l ( "Don\x27t trust pop-up warnings"),
      s2l ( "Use official support channels only"),
      s2l ( "Install reputable antivirus from known companies")] }]

/-- `textToAnalyze`: the lower-cased concatenation
`` `${remittanceInfo} ${recipientName}` ``. -/
def fraudTextOf (remittanceInfo recipientName : Str) : Str :=
  toLower (remittanceInfo ++ ' ' :: recipientName)

/-- The triggers of `p` found in the text (case-insensitive substring
search, in trigger order). -/
def matchedTriggers (text : Str) (p : ScamPattern) : List Str :=
  p.triggerWords.filter (fun t => strContains text (toLower t))

/-- `Math.min((matchCount / pattern.triggerWords.length) * 100, 95)`. -/
def patternConfidence (text : Str) (p : ScamPattern) : ℚ :=
  min (((matchedTriggers text p).length : ℚ) / (p.triggerWords.length : ℚ) * 100) 95

/-- The guard under which a pattern is pushed onto `detectedScams`:
`matchCount > 0` and confidence at least `confidenceThreshold * 100`. -/
def patternDetected (text : Str) (p : ScamPattern) : Bool :=
  decide (0 < (matchedTriggers text p).length)
    && decide (p.confidenceThreshold * 100 ≤ patternConfidence text p)

/-- The record pushed onto `detectedScams` for a detected pattern. -/
def mkDetected (text : Str) (p : ScamPattern) : DetectedScam :=
  { name := p.name, confidence := patternConfidence text p,
    description := p.description, preventionTips := p.preventionTips,
    matchedTriggers := matchedTriggers text p }

/-- `` `Detected ${scamName} keywords: ${matchedTriggers.join(', ')}` ``. -/
def detectSignal (text : Str) (p : ScamPattern) : Str :=
  s2l ( "Detected ") ++ p.name ++ s2l ( " keywords: ")
    ++ List.intercalate (s2l ( ", ")) (matchedTriggers text p)

/-- `` `Amount matches ${scamName} pattern ($${min}-$${max})` ``. -/
def bandSignal (p : ScamPattern) : Str :=
  s2l ( "Amount matches ") ++ p.name ++ s2l ( " pattern ($")
    ++ natStr p.typicalAmountMin ++ s2l ( "-$") ++ natStr p.typicalAmountMax ++ s2l ( ")")

/-- The amount-band guard of the loop:
`pattern.typicalAmountMin && pattern.typicalAmountMax` (number truthiness)
and `amount` inside the band and `matchCount > 0`. -/
def bandFires (amount : ℚ) (text : Str) (p : ScamPattern) : Bool :=
  (p.typicalAmountMin != 0) && (p.typicalAmountMax != 0)
    && decide ((p.typicalAmountMin : ℚ) ≤ amount)
    && decide (amount ≤ (p.typicalAmountMax : ℚ))
    && decide (0 < (matchedTriggers text p).length)

/-- One iteration of `analyzeFraud`'s `for … of Object.entries(SCAM_PATTERNS)`
loop: keyword detection (the source's nested `matchCount > 0` and
`confidence >= threshold * 100` guards, combined here into
`patternDetected`), then the amount-band check. -/
def scamStep (amount : ℚ) (text : Str) (st : ScanState) (p : ScamPattern) : ScanState :=
  let st1 :=
    if patternDetected text p then
      { fraudScore := max st.fraudScore (patternConfidence text p),
        detectedScams := st.detectedScams ++ [mkDetected text p],
        signals := st.signals ++ [detectSignal text p] }
    else st
  if bandFires amount text p then
    { st1 with fraudScore := max st1.fraudScore 70,
               signals := st1.signals ++ [bandSignal p] }
  else st1

/-- The loop state after the whole pattern loop. -/
def afterPatterns (amount : ℚ) (text : Str) : ScanState :=
  SCAM_PATTERNS.foldl (scamStep amount text) ⟨0, [], []⟩

/-- The age condition `customerAge && customerAge >= 65` (number
truthiness: `0` and absent are both falsy). -/
def ageCond (customerAge : Option ℕ) : Bool :=
  match customerAge with
  | none => false
  | some a => (a != 0) && decide (65 ≤ a)

/-- Age-based risk adjustment: seniors multiply the score by 1.2, capped
at 95. -/
def afterAge (customerAge : Option ℕ) (st : ScanState) : ScanState :=
  if ageCond customerAge then
    { st with
      signals := st.signals ++ [s2l ( "Customer is in senior age group (higher vulnerability)")],
      fraudScore := min (st.fraudScore * 1.2) 95 }
  else st

/-- The fixed urgency keyword list. -/
def urgencyWords : List Str :=
  [s2l ( "urgent"), s2l ( "immediately"), s2l ( "right now"), s2l ( "asap"),
   s2l ( "today"), s2l ( "hurry"), s2l ( "quick")]

/-- Urgency detection: any urgency keyword in the text adds 15 points,
capped at 95. -/
def afterUrgency (text : Str) (st : ScanState) : ScanState :=
  if urgencyWords.any (fun w => strContains text w) then
    { st with
      signals := st.signals ++ [s2l ( "Urgent language detected (common pressure tactic)")],
      fraudScore := min (st.fraudScore + 15) 95 }
  else st

/-- Is the rational an exact multiple of 500 (the JS test
`amount % 500 === 0`)? -/
def isMultipleOf500 (q : ℚ) : Bool := (q / 500).den == 1

/-- Round-amount heuristic: amounts of at least 1000 divisible by 500 add
10 points, capped at 95. -/
def afterRound (amount : ℚ) (st : ScanState) : ScanState :=
  if decide ((1000 : ℚ) ≤ amount) && isMultipleOf500 amount then
    { st with
      signals := st.signals ++ [s2l ( "Large round amount (common in scams)")],
      fraudScore := min (st.fraudScore + 10) 95 }
  else st

/-- `Math.round`: round half toward positive infinity. -/
def jsRound (q : ℚ) : ℤ := ⌊q + 1 / 2⌋

/-- The running score at the end of `analyzeFraud`, just before rounding. -/
def finalScore (amount : ℚ) (text : Str) (customerAge : Option ℕ) : ℚ :=
  (afterRound amount (afterUrgency text (afterAge customerAge (afterPatterns amount text)))).fraudScore

/-- The rule-based core of `analyzeFraud`: the result when the AI block
does not run (no OpenAI credentials configured).  The full function,
including the AI block of `fraud-detection.ts:146-159`, is
`analyzeFraudWithAI` below, of which this is the
`aiConfigured = false` case. -/
def analyzeFraud (amount : ℚ) (remittanceInfo recipientName : Str)
    (customerAge : Option ℕ) : FraudResult :=
  let text := fraudTextOf remittanceInfo recipientName
  let st := afterRound amount (afterUrgency text (afterAge customerAge (afterPatterns amount text)))
  { fraudScore := jsRound st.fraudScore,
    fraudFlag := decide ((60 : ℚ) ≤ st.fraudScore),
    detectedScams := st.detectedScams,
    signals := st.signals }

/-- The full `analyzeFraud`, including the AI-enhancement block
(`fraud-detection.ts:146-159`).  `aiConfigured` models whether
`process.env.AI_INTEGRATIONS_OPENAI_BASE_URL` is set; `aiSignals` models
the outcome of the external `enhanceWithAI` call, which is not a function
of the scorer's inputs: `some sigs` is a successful call returning
`additionalSignals: sigs` (a returned array is truthy even when empty, so
it is always pushed), and `none` covers a thrown/caught call and
`enhanceWithAI`'s own error path returning `{}` (whose `additionalSignals`
is `undefined`, hence falsy).  The block runs only when the running score
is at least 50, some scam was detected, and credentials are configured;
the score itself is never revised, because `enhanceWithAI` sets
`adjustedScore: result.scoreAdjustment ? undefined : undefined`, which is
`undefined` on both branches, so the `Math.min(adjustedScore, 95)`
assignment is dead code. -/
def analyzeFraudWithAI (amount : ℚ) (remittanceInfo recipientName : Str)
    (customerAge : Option ℕ) (aiConfigured : Bool) (aiSignals : Option (List Str)) :
    FraudResult :=
  let text := fraudTextOf remittanceInfo recipientName
  let st := afterRound amount (afterUrgency text (afterAge customerAge (afterPatterns amount text)))
  let signalsOut :=
    if decide ((50 : ℚ) ≤ st.fraudScore) && decide (0 < st.detectedScams.length)
        && aiConfigured then
      match aiSignals with
      | some sigs => st.signals ++ sigs
      | none => st.signals
    else st.signals
  { fraudScore := jsRound st.fraudScore,
    fraudFlag := decide ((60 : ℚ) ≤ st.fraudScore),
    detectedScams := st.detectedScams,
    signals := signalsOut }

/-! ## Field extraction of the transform route (`server/routes.ts`) -/

/-- The `(amount, remittanceInfo, recipientName)` triple the transform route
passes to `analyzeFraud` for a NACHA result: `parseInt(amount || "0") / 100`
(`none` models `NaN`), `batchHeader?.entryDescription || ""` and
`entryDetail?.individualName || ""`. -/
def routesNachaInputs (data : NACHAData) : Option ℚ × Str × Str :=
  ((jsParseInt (jsOr (data.entryDetail.map (·.amount)) (s2l ( "0")))).map
      (fun n => (n : ℚ) / 100),
   jsOr (data.batchHeader.map (·.entryDescription)) [],
   jsOr (data.entryDetail.map (·.individualName)) [])

/-! ## Derived views used to state the claims -/

/-- The 1-indexed inclusive byte range `a..b` of the NACHA record layout
(bytes are numbered from 1 as in the NACHA specification). -/
def field1 (s : Str) (a b : ℕ) : Str := (s.drop (a - 1)).take (b - a + 1)

/-- The score updates performed by the keyword-detection branch of the
pattern loop in isolation (`fraudScore = Math.max(fraudScore, confidence)`
for each detected pattern, in catalog order): the running score "after
step 2" of the scoring pipeline. -/
def detectionScore (text : Str) : ℚ :=
  SCAM_PATTERNS.foldl
    (fun s p => if patternDetected text p then max s (patternConfidence text p) else s) 0

/-- The score updates performed by the amount-band branch of the pattern
loop in isolation (`fraudScore = Math.max(fraudScore, 70)` for each band
match). -/
def bandScoreQ (amount : ℚ) (text : Str) : ℚ :=
  SCAM_PATTERNS.foldl
    (fun s p => if bandFires amount text p then max s 70 else s) 0

/-! ## Helper lemmas about the string model -/

theorem dropWhile_eq_self_of_false {p : Char → Bool} {l : Str}
    (h : ∀ c ∈ l, p c = false) : l.dropWhile p = l := by
  cases l with
  | nil => rfl
  | cons c t =>
    rw [List.dropWhile_cons, h c (List.mem_cons_self c t)]
    simp

theorem trim_eq_self_of {l : Str} (h : ∀ c ∈ l, isWs c = false) : trim l = l := by
  unfold trim
  rw [dropWhile_eq_self_of_false h,
    dropWhile_eq_self_of_false (fun c hc => h c (List.mem_reverse.mp hc)),
    List.reverse_reverse]

theorem splitOnChar_eq_single {sep : Char} {l : Str} (h : sep ∉ l) :
    splitOnChar sep l = [l] := by
  induction l with
  | nil => rfl
  | cons c t ih =>
    have hc : (c == sep) = false := by
      refine beq_eq_false_iff_ne.mpr (fun hcc => ?_)
      exact h (hcc ▸ List.mem_cons_self c t)
    have ht : splitOnChar sep t = [t] := ih (fun hm => h (List.mem_cons_of_mem _ hm))
    simp only [splitOnChar, hc, ht]
    simp

theorem isWs_false_of_digit {c : Char} (h : isDigitB c = true) : isWs c = false := by
  simp [isDigitB] at h
  simp [isWs]
  omega

theorem isWs_false_of_upper {c : Char} (h : isUpperB c = true) : isWs c = false := by
  simp [isUpperB] at h
  simp [isWs]
  omega

theorem isWs_false_of_amt {c : Char} (h : isAmtChar c = true) : isWs c = false := by
  simp [isAmtChar, isDigitB] at h
  simp [isWs]
  omega

theorem nl_notMem {l : Str} (h : ∀ c ∈ l, isWs c = false) : ('\n') ∉ l := by
  intro hm
  have := h _ hm
  simp [isWs] at this

/-! ## Claim C4: MT103 amount parsing -/

/-- C4 (amended) — for every well-formed `:32A:` line body (six digits,
three capitals, then a nonempty run of digits, commas and periods),
`parseMT103` stores the date and currency groups verbatim and stores the
amount group with only its first comma converted to a period; no
thousands-separator stripping is performed, and the amount is present even
when the run contains no digit. -/
theorem c4_amount_first_comma (d c a : Str)
    (hd : d.length = 6) (hda : ∀ ch ∈ d, isDigitB ch = true)
    (hc : c.length = 3) (hca : ∀ ch ∈ c, isUpperB ch = true)
    (ha : a ≠ []) (haa : ∀ ch ∈ a, isAmtChar ch = true) :
    parseMT103 (s2l ( ":32A:") ++ (d ++ (c ++ a))) =
      { valueDate := some d, currency := some c,
        amount := some (replaceFirstComma a) } := by
  have htag : ∀ ch ∈ s2l ( ":32A:"), isWs ch = false := by decide
  have hall : ∀ ch ∈ (s2l ( ":32A:") ++ (d ++ (c ++ a))), isWs ch = false := by
    intro ch hch
    rcases List.mem_append.mp hch with h | h
    · exact htag ch h
    · rcases List.mem_append.mp h with h2 | h2
      · exact isWs_false_of_digit (hda ch h2)
      · rcases List.mem_append.mp h2 with h3 | h3
        · exact isWs_false_of_upper (hca ch h3)
        · exact isWs_false_of_amt (haa ch h3)
  have hnl : ('\n') ∉ (s2l ( ":32A:") ++ (d ++ (c ++ a))) := nl_notMem hall
  have htake : (d ++ (c ++ a)).take 6 = d := List.take_left' hd
  have hdrop : (d ++ (c ++ a)).drop 6 = c ++ a := List.drop_left' hd
  have htake3 : (c ++ a).take 3 = c := List.take_left' hc
  have hdrop3 : (c ++ a).drop 3 = a := List.drop_left' hc
  have hwhile : a.takeWhile isAmtChar = a := List.takeWhile_eq_self_iff.mpr haa
  have hempty : a.isEmpty = false := by
    cases a with
    | nil => exact absurd rfl ha
    | cons x xs => rfl
  have hmatch : matchAt32A (d ++ (c ++ a)) = some (d, c, a) := by
    simp only [matchAt32A, htake, hdrop, htake3, hdrop3, hwhile]
    rw [if_pos]
    simp [hd, hc, hempty, List.all_eq_true]
    exact ⟨hda, hca⟩
  have hsearch : search32A (d ++ (c ++ a)) = some (d, c, a) := by
    cases d with
    | nil => exact absurd hd (by decide)
    | cons dh dt =>
      rw [List.cons_append]
      unfold search32A
      rw [← List.cons_append, hmatch]
  unfold parseMT103
  rw [splitOnChar_eq_single hnl]
  simp only [List.map_cons, List.map_nil, List.foldl_cons, List.foldl_nil]
  rw [trim_eq_self_of hall]
  unfold processMT103Line
  rw [if_neg, if_pos]
  · rw [show (s2l ( ":32A:") ++ (d ++ (c ++ a))).drop 5 = d ++ (c ++ a) from rfl]
    rw [hsearch]
  · show List.isPrefixOf [':', '3', '2', 'A', ':']
      (':' :: '3' :: '2' :: 'A' :: ':' :: (d ++ (c ++ a))) = true
    simp +decide [List.isPrefixOf]
  · show ¬ (List.isPrefixOf [':', '2', '0', ':']
      (':' :: '3' :: '2' :: 'A' :: ':' :: (d ++ (c ++ a))) = true)
    simp +decide [List.isPrefixOf]

/-- C4 witness: the spec's happy-path example `:32A:250315USD2500,00`
parses to date `250315`, currency `USD`, amount `2500.00`. -/
theorem c4_amount_first_comma_witness :
    parseMT103 (s2l ( ":32A:") ++ (s2l ( "250315") ++ (s2l ( "USD") ++ s2l ( "2500,00")))) =
      { valueDate := some (s2l ( "250315")), currency := some (s2l ( "USD")),
        amount := some (s2l ( "2500.00")) } :=
  (c4_amount_first_comma (s2l ( "250315")) (s2l ( "USD")) (s2l ( "2500,00"))
    (by decide) (by decide) (by decide) (by decide) (by decide) (by decide)).trans
    (by decide)

/-- C4 counterexample: on `:32A:230906USD2,500.00` the code yields amount
`2.500.00` (only the first comma is converted, no thousands separators are
stripped), not the `2500.00` the claim mandates; and on `:32A:230906USD,`,
whose amount group contains no digit, the amount field is present (`"."`)
rather than absent. -/
theorem c4_counterexample :
    (parseMT103 (s2l ( ":32A:230906USD2,500.00"))).amount = some (s2l ( "2.500.00")) ∧
    (parseMT103 (s2l ( ":32A:230906USD,"))).amount = some (s2l ( ".")) ∧
    s2l ( "2.500.00") ≠ s2l ( "2500.00") := by
  decide

/-! ## Claim C7: NACHA byte ranges -/

/-- Shared helper: parsing a single newline-free, already-trimmed line cuts
exactly the 1-indexed inclusive byte ranges of the NACHA layout. -/
theorem parseNACHA_single (line : Str)
    (hnl : ('\n') ∉ line) (ht : trim line = line) :
    parseNACHA line =
      { batchHeader :=
          if List.isPrefixOf ['5'] line then
            some { companyName := trim (field1 line 5 20),
                   companyId := trim (field1 line 41 50),
                   standardEntryClass := trim (field1 line 51 53),
                   entryDescription := trim (field1 line 54 63),
                   effectiveEntryDate := trim (field1 line 70 75) }
          else none,
        entryDetail :=
          if List.isPrefixOf ['5'] line then none
          else if List.isPrefixOf ['6'] line then
            some { transactionCode := field1 line 2 3,
                   receivingDFI := field1 line 4 11,
                   checkDigit := field1 line 12 12,
                   dfiAccountNumber := trim (field1 line 13 29),
                   amount := field1 line 30 39,
                   individualId := trim (field1 line 40 54),
                   individualName := trim (field1 line 55 76),
                   traceNumber := trim (field1 line 80 94) }
          else none } := by
  unfold parseNACHA
  rw [splitOnChar_eq_single hnl]
  simp only [List.map_cons, List.map_nil, ht]
  cases line with
  | nil => simp [List.filter, List.isPrefixOf]
  | cons ch rest =>
    simp only [List.filter, List.isEmpty_cons, Bool.not_false, List.foldl_cons, List.foldl_nil]
    unfold processNACHALine
    by_cases h5 : List.isPrefixOf ['5'] (ch :: rest) = true
    · simp [h5, field1, jsSubstring]
    · by_cases h6 : List.isPrefixOf ['6'] (ch :: rest) = true
      · simp [h5, h6, field1, jsSubstring]
      · simp [h5, h6]

/-- C7: for every newline-free, already-trimmed line, `parseNACHA` extracts
each field from exactly the 1-indexed inclusive byte ranges of the NACHA
layout (via `field1`), trimming where the source trims; lines whose first
character is neither `5` nor `6` are ignored. -/
theorem c7_nacha_byte_ranges (line : Str)
    (hnl : ('\n') ∉ line) (ht : trim line = line) :
    parseNACHA line =
      { batchHeader :=
          if List.isPrefixOf ['5'] line then
            some { companyName := trim (field1 line 5 20),
                   companyId := trim (field1 line 41 50),
                   standardEntryClass := trim (field1 line 51 53),
                   entryDescription := trim (field1 line 54 63),
                   effectiveEntryDate := trim (field1 line 70 75) }
          else none,
        entryDetail :=
          if List.isPrefixOf ['5'] line then none
          else if List.isPrefixOf ['6'] line then
            some { transactionCode := field1 line 2 3,
                   receivingDFI := field1 line 4 11,
                   checkDigit := field1 line 12 12,
                   dfiAccountNumber := trim (field1 line 13 29),
                   amount := field1 line 30 39,
                   individualId := trim (field1 line 40 54),
                   individualName := trim (field1 line 55 76),
                   traceNumber := trim (field1 line 80 94) }
          else none } :=
  parseNACHA_single line hnl ht

/-- C7 witness: a full 94-character entry-detail line is cut at exactly the
claimed ranges. -/
theorem c7_nacha_byte_ranges_witness :
    parseNACHA (s2l ( "622123456789000012345678901230000125000CUST12345678901JOHN DOE              0  091000010000001")) =
      { batchHeader := none,
        entryDetail := some
          { transactionCode := s2l ( "22"),
            receivingDFI := s2l ( "12345678"),
            checkDigit := s2l ( "9"),
            dfiAccountNumber := s2l ( "00001234567890123"),
            amount := s2l ( "0000125000"),
            individualId := s2l ( "CUST12345678901"),
            individualName := s2l ( "JOHN DOE"),
            traceNumber := s2l ( "091000010000001") } } := by
  have h := c7_nacha_byte_ranges
    (s2l ( "622123456789000012345678901230000125000CUST12345678901JOHN DOE              0  091000010000001"))
    (by decide) (by decide)
  exact h.trans (by decide)

/-! ## Claim C1: XML escaping (code bug evidence) -/

/-- C1 evidence: with the spec's adversarial recipient name
`<script>&"'` as the `:59:` beneficiary, the rendered XML contains the raw
characters (`<Nm><script>&"'</Nm>`) and none of the five escaped entities:
the converter performs no XML escaping, so the output is not well-formed
XML (`&` is not part of an entity reference). -/
theorem c1_unescaped_interpolation :
    (strContains
      (convertMT103ToISO20022 (s2l ( "0")) (s2l ( "T")) (s2l ( "D"))
        (parseMT103 (s2l ( ":59:<script>&\"\x27"))))
      (s2l ( "<Nm><script>&\"\x27</Nm>")) = true) ∧
    (strContains
      (convertMT103ToISO20022 (s2l ( "0")) (s2l ( "T")) (s2l ( "D"))
        (parseMT103 (s2l ( ":59:<script>&\"\x27"))))
      (s2l ( "&amp;")) = false) ∧
    (strContains
      (convertMT103ToISO20022 (s2l ( "0")) (s2l ( "T")) (s2l ( "D"))
        (parseMT103 (s2l ( ":59:<script>&\"\x27"))))
      (s2l ( "&lt;")) = false) ∧
    (strContains
      (convertMT103ToISO20022 (s2l ( "0")) (s2l ( "T")) (s2l ( "D"))
        (parseMT103 (s2l ( ":59:<script>&\"\x27"))))
      (s2l ( "&gt;")) = false) ∧
    (strContains
      (convertMT103ToISO20022 (s2l ( "0")) (s2l ( "T")) (s2l ( "D"))
        (parseMT103 (s2l ( ":59:<script>&\"\x27"))))
      (s2l ( "&quot;")) = false) ∧
    (strContains
      (convertMT103ToISO20022 (s2l ( "0")) (s2l ( "T")) (s2l ( "D"))
        (parseMT103 (s2l ( ":59:<script>&\"\x27"))))
      (s2l ( "&apos;")) = false) := by
  decide

/-! ## Claim C3: MT103 date conversion (code bug evidence) -/

/-- C3 evidence: for `:32A:230906USD2500,00` the parser stores the raw
`YYMMDD` string `230906` and the XML emits it unchanged inside
`IntrBkSttlmDt`; the ISO-8601 form `2023-09-06` appears nowhere in the
output — the century-prefixing conversion the spec (and the repository's
own documentation) describes is not performed. -/
theorem c3_raw_yymmdd_date :
    (parseMT103 (s2l ( ":32A:230906USD2500,00"))).valueDate = some (s2l ( "230906")) ∧
    (strContains
      (convertMT103ToISO20022 (s2l ( "0")) (s2l ( "T")) (s2l ( "2025-01-01"))
        (parseMT103 (s2l ( ":32A:230906USD2500,00"))))
      (s2l ( "<IntrBkSttlmDt>230906</IntrBkSttlmDt>")) = true) ∧
    (strContains
      (convertMT103ToISO20022 (s2l ( "0")) (s2l ( "T")) (s2l ( "2025-01-01"))
        (parseMT103 (s2l ( ":32A:230906USD2500,00"))))
      (s2l ( "2023-09-06")) = false) := by
  decide

/-! ## Claim C8: graceful degradation on short NACHA lines -/

theorem scamStep_id {amount : ℚ} {text : Str} {p : ScamPattern} {st : ScanState}
    (h1 : patternDetected text p = false) (h2 : bandFires amount text p = false) :
    scamStep amount text st p = st := by
  simp [scamStep, h1, h2]

theorem foldl_scamStep_id {amount : ℚ} {text : Str} (ps : List ScamPattern)
    (st : ScanState)
    (h : ∀ p ∈ ps, patternDetected text p = false ∧ bandFires amount text p = false) :
    ps.foldl (scamStep amount text) st = st := by
  induction ps generalizing st with
  | nil => rfl
  | cons p ps ih =>
    rw [List.foldl_cons,
      scamStep_id (h p (List.mem_cons_self p ps)).1 (h p (List.mem_cons_self p ps)).2]
    exact ih st (fun q hq => h q (List.mem_cons_of_mem p hq))

theorem bandFires_of_amount_lt {amount : ℚ} {text : Str} {p : ScamPattern}
    (h : amount < (p.typicalAmountMin : ℚ)) : bandFires amount text p = false := by
  have hC : decide ((p.typicalAmountMin : ℚ) ≤ amount) = false :=
    decide_eq_false (not_le.mpr h)
  simp [bandFires, hC]

theorem afterPatterns_zero_empty :
    afterPatterns 0 (fraudTextOf [] []) = ⟨0, [], []⟩ := by
  refine foldl_scamStep_id SCAM_PATTERNS _ (fun p hp => ⟨?_, ?_⟩)
  · revert p hp
    decide
  · refine bandFires_of_amount_lt ?_
    fin_cases hp <;> norm_num

theorem jsRound_zero : jsRound 0 = 0 := by
  unfold jsRound
  norm_num

/-- Shared helper: on amount `0` and empty remittance and recipient strings
(the values the route propagates for an all-absent NACHA parse), the fraud
scorer returns score `0` and a false flag for every customer age. -/
theorem analyzeFraud_zero_empty (g : Option ℕ) :
    (analyzeFraud 0 [] [] g).fraudScore = 0 ∧
      (analyzeFraud 0 [] [] g).fraudFlag = false := by
  have hage : (afterAge g (⟨0, [], []⟩ : ScanState)).fraudScore = 0 := by
    unfold afterAge
    split
    · show min ((0 : ℚ) * 1.2) 95 = 0
      norm_num
    · rfl
  have hurg : ∀ st : ScanState, (afterUrgency (fraudTextOf [] []) st).fraudScore = st.fraudScore := by
    intro st
    have hcond : (urgencyWords.any (fun w => strContains (fraudTextOf [] []) w)) = false := by
      decide
    simp [afterUrgency, hcond]
  have hrnd : ∀ st : ScanState, (afterRound 0 st).fraudScore = st.fraudScore := by
    intro st
    have hcond : decide ((1000 : ℚ) ≤ (0 : ℚ)) = false := decide_eq_false (by norm_num)
    simp [afterRound, hcond]
  have hscore : finalScore 0 (fraudTextOf [] []) g = 0 := by
    unfold finalScore
    rw [afterPatterns_zero_empty, hrnd, hurg, hage]
  constructor
  · show jsRound (finalScore 0 (fraudTextOf [] []) g) = 0
    rw [hscore]
    exact jsRound_zero
  · show decide ((60 : ℚ) ≤ finalScore 0 (fraudTextOf [] []) g) = false
    rw [hscore]
    exact decide_eq_false (by norm_num)

/-- C8 counterexample: the 32-character entry-detail line
`6` + 30 spaces + `X` is shorter than 94 characters and does not raise, but
its amount slice is the non-empty garbage `"  X"` (not an absent/empty
field) and the rendered amount is `NaN` (not `0.00`):
`parseInt("  X")` is `NaN` and `(NaN/100).toFixed(2)` prints `NaN`. -/
theorem c8_counterexample :
    (s2l ( "6                              X")).length < 94 ∧
    ((parseNACHA (s2l ( "6                              X"))).entryDetail.map (·.amount))
      = some (s2l ( "  X")) ∧
    nachaRenderedAmount (parseNACHA (s2l ( "6                              X")))
      = s2l ( "NaN") ∧
    s2l ( "NaN") ≠ s2l ( "0.00") := by
  decide

/-- C8 (amended): the NACHA transform never raises — every operation in the
embedding is total — and for an entry-detail line too short to reach the
amount field (fewer than 30 characters) the amount slice degrades to the
empty string, the rendered amount is `0.00`, the route propagates amount
`0` and empty remittance/recipient strings, and the fraud scorer returns
score `0` with a false flag; but a short line whose amount slice is
non-empty garbage renders `NaN` instead (see the counterexample). -/
theorem c8_short_line_amended (line : Str)
    (hnl : ('\n') ∉ line) (ht : trim line = line)
    (h6 : List.isPrefixOf ['6'] line = true) (hlen : line.length < 30) :
    ((parseNACHA line).entryDetail.map (·.amount)) = some [] ∧
    nachaRenderedAmount (parseNACHA line) = s2l ( "0.00") ∧
    routesNachaInputs (parseNACHA line) = (some 0, [], []) ∧
    (∀ g : Option ℕ, (analyzeFraud 0 [] [] g).fraudScore = 0 ∧
        (analyzeFraud 0 [] [] g).fraudFlag = false) := by
  obtain ⟨t, rfl⟩ : ∃ t, line = '6' :: t := by
    cases line with
    | nil => simp [List.isPrefixOf] at h6
    | cons c rest =>
      have hc : c = '6' := by
        simp [List.isPrefixOf] at h6
        exact h6.symm
      exact ⟨rest, by rw [hc]⟩
  have h5 : List.isPrefixOf ['5'] ('6' :: t) = false := by
    simp [List.isPrefixOf]
  have hp := parseNACHA_single ('6' :: t) hnl ht
  simp only [h5, h6, Bool.false_eq_true, if_false, if_true] at hp
  have hle : ('6' :: t).length ≤ 29 := Nat.lt_succ_iff.mp hlen
  have hdrop29 : ('6' :: t).drop 29 = [] := List.drop_of_length_le hle
  have hdrop54 : ('6' :: t).drop 54 = [] := List.drop_of_length_le (by omega)
  have hamt : field1 ('6' :: t) 30 39 = [] := by
    simp [field1, hdrop29]
  have hnm : field1 ('6' :: t) 55 76 = [] := by
    simp [field1, hdrop54]
  refine ⟨?_, ?_, ?_, analyzeFraud_zero_empty⟩
  · rw [hp]
    simp [hamt]
  · have hstr : nachaAmountStr (parseNACHA ('6' :: t)) = s2l ( "0") := by
      rw [nachaAmountStr, hp]
      simp [hamt, jsOr, jsOrS]
    rw [nachaRenderedAmount, hstr]
    decide
  · unfold routesNachaInputs
    rw [hp]
    simp only [Option.map_some', Option.map_none', hamt, hnm]
    rw [show jsOr (some []) (s2l ( "0")) = s2l ( "0") from by decide]
    rw [show jsParseInt (s2l ( "0")) = some 0 from by decide]
    simp [jsOr, jsOrS, trim]

/-- C8 witness: the concrete 4-character line `6ABC`. -/
theorem c8_short_line_amended_witness :
    ((parseNACHA (s2l ( "6ABC"))).entryDetail.map (·.amount)) = some [] ∧
    nachaRenderedAmount (parseNACHA (s2l ( "6ABC"))) = s2l ( "0.00") ∧
    routesNachaInputs (parseNACHA (s2l ( "6ABC"))) = (some 0, [], []) ∧
    (analyzeFraud 0 [] [] (some 72)).fraudScore = 0 := by
  have h := c8_short_line_amended (s2l ( "6ABC")) (by decide) (by decide)
    (by decide) (by decide)
  exact ⟨h.1, h.2.1, h.2.2.1, (h.2.2.2 (some 72)).1⟩

/-! ## Claim C9: NACHA cents formatting -/

theorem strToNat_append_singleton (xs : Str) (c : Char) :
    strToNat (xs ++ [c]) = 10 * strToNat xs + (c.toNat - 48) := by
  simp [strToNat, List.foldl_append]

theorem toNat_digitChar (m : ℕ) : (digitChar m).toNat = 48 + m % 10 := by
  unfold digitChar
  have h : m % 10 = 0 ∨ m % 10 = 1 ∨ m % 10 = 2 ∨ m % 10 = 3 ∨ m % 10 = 4 ∨ m % 10 = 5
      ∨ m % 10 = 6 ∨ m % 10 = 7 ∨ m % 10 = 8 ∨ m % 10 = 9 := by omega
  rcases h with h | h | h | h | h | h | h | h | h | h <;> rw [h] <;> rfl

theorem strToNat_natStrAux : ∀ (fuel n : ℕ), n < fuel → strToNat (natStrAux fuel n) = n := by
  intro fuel
  induction fuel with
  | zero => intro n h; omega
  | succ f ih =>
    intro n h
    by_cases h10 : n < 10
    · simp only [natStrAux, if_pos h10]
      show 10 * 0 + ((digitChar n).toNat - 48) = n
      rw [toNat_digitChar]
      omega
    · simp only [natStrAux, if_neg h10]
      rw [strToNat_append_singleton, ih (n / 10) ?lt, toNat_digitChar]
      · have hdm := Nat.div_add_mod n 10
        omega
      case lt =>
        have h1 : n / 10 < n := Nat.div_lt_self (by omega) (by norm_num)
        omega

theorem strToNat_natStr (n : ℕ) : strToNat (natStr n) = n :=
  strToNat_natStrAux (n + 1) n (Nat.lt_succ_self n)

theorem natStr_single_digit {n : ℕ} (h : n < 10) : natStr n = [digitChar n] := by
  unfold natStr
  simp [natStrAux, h]

theorem natStr_two_digits {n : ℕ} (h1 : 10 ≤ n) (h2 : n < 100) :
    natStr n = [digitChar (n / 10), digitChar (n % 10)] := by
  unfold natStr
  obtain ⟨f, rfl⟩ : ∃ f, n = f + 1 := ⟨n - 1, by omega⟩
  simp only [natStrAux, if_neg (by omega : ¬ (f + 1 < 10))]
  have hd : (f + 1) / 10 < 10 := by omega
  cases f with
  | zero => omega
  | succ f2 =>
    simp only [natStrAux, if_pos hd]
    rfl

theorem pad2_length {m : ℕ} (h : m < 100) : (pad2 m).length = 2 := by
  unfold pad2
  by_cases h10 : m < 10
  · rw [if_pos h10, natStr_single_digit h10]
    rfl
  · rw [if_neg h10, natStr_two_digits (by omega) h]
    rfl

theorem strToNat_pad2 (m : ℕ) : strToNat (pad2 m) = m := by
  unfold pad2
  by_cases h10 : m < 10
  · rw [if_pos h10]
    show strToNat ('0' :: natStr m) = m
    have hz : strToNat ('0' :: natStr m) = strToNat (natStr m) := rfl
    rw [hz, strToNat_natStr]
  · rw [if_neg h10, strToNat_natStr]

/-- C9: whenever the entry-detail amount field parses to a non-negative
integer cents value `n`, the rendered amount is the decimal form of
`n / 100`: the integer quotient, a period, then exactly two digits whose
value is `n % 100`. -/
theorem c9_amount_cents (data : NACHAData) (e : NACHAEntryDetail) (n : ℤ)
    (he : data.entryDetail = some e) (hn : jsParseInt e.amount = some n)
    (h0 : 0 ≤ n) :
    nachaRenderedAmount data = natStr (n.toNat / 100) ++ '.' :: pad2 (n.toNat % 100) ∧
    (pad2 (n.toNat % 100)).length = 2 ∧
    strToNat (natStr (n.toNat / 100)) * 100 + strToNat (pad2 (n.toNat % 100)) = n.toNat := by
  have hne : e.amount ≠ [] := by
    intro hcontra
    rw [hcontra] at hn
    have hnone : jsParseInt ([] : Str) = none := rfl
    rw [hnone] at hn
    exact Option.noConfusion hn
  have hF : e.amount.isEmpty = false := by
    cases hA : e.amount with
    | nil => exact absurd hA hne
    | cons a b => rfl
  have hstr : nachaAmountStr data = e.amount := by
    rw [nachaAmountStr, he]
    simp [jsOr, jsOrS, hF]
  rw [nachaRenderedAmount, hstr, hn]
  have hneg : ¬ (n < 0) := not_lt.mpr h0
  have hm : n.toNat % 100 < 100 := Nat.mod_lt _ (by norm_num)
  refine ⟨?_, pad2_length hm, ?_⟩
  · show toFixed2OfCents n = _
    unfold toFixed2OfCents
    rw [if_neg hneg]
  · rw [strToNat_natStr, strToNat_pad2]
    have hdm := Nat.div_add_mod n.toNat 100
    omega

/-- C9 witness: `0000125000` renders as `1250.00` and `0000000001` renders
as `0.01`. -/
theorem c9_amount_cents_witness :
    nachaRenderedAmount ⟨none, some ⟨[], [], [], [], s2l ( "0000125000"), [], [], []⟩⟩
      = s2l ( "1250.00") ∧
    nachaRenderedAmount ⟨none, some ⟨[], [], [], [], s2l ( "0000000001"), [], [], []⟩⟩
      = s2l ( "0.01") := by
  constructor
  · exact ((c9_amount_cents _ _ 125000 rfl (by decide) (by decide)).1).trans (by decide)
  · exact ((c9_amount_cents _ _ 1 rfl (by decide) (by decide)).1).trans (by decide)

/-! ## Claim C6: rounding and the fixed flag threshold -/

/-- C6: the returned `fraudScore` is the running score rounded to the
nearest integer (`Math.round`), and `fraudFlag` holds exactly when the
running score is at least 60. -/
theorem c6_round_and_threshold (amount : ℚ) (rem nm : Str) (age : Option ℕ) :
    (analyzeFraud amount rem nm age).fraudScore
      = jsRound (finalScore amount (fraudTextOf rem nm) age) ∧
    ((analyzeFraud amount rem nm age).fraudFlag = true ↔
      (60 : ℚ) ≤ finalScore amount (fraudTextOf rem nm) age) := by
  refine ⟨rfl, ?_⟩
  show decide ((60 : ℚ) ≤ finalScore amount (fraudTextOf rem nm) age) = true ↔ _
  exact decide_eq_true_iff

/-! ## Claim C10: the returned score lies in 0..95 -/

theorem patternConfidence_nonneg (text : Str) (p : ScamPattern) :
    0 ≤ patternConfidence text p := by
  refine le_min ?_ (by norm_num)
  positivity

theorem patternConfidence_le_95 (text : Str) (p : ScamPattern) :
    patternConfidence text p ≤ 95 :=
  min_le_right _ _

/-- The score component of one loop iteration: the detection `max`, then the
amount-band `max`. -/
theorem scamStep_score (amount : ℚ) (text : Str) (p : ScamPattern) (st : ScanState) :
    (scamStep amount text st p).fraudScore =
      (if bandFires amount text p then
        max (if patternDetected text p then
              max st.fraudScore (patternConfidence text p)
             else st.fraudScore) 70
       else (if patternDetected text p then
              max st.fraudScore (patternConfidence text p)
             else st.fraudScore)) := by
  unfold scamStep
  rcases Bool.eq_false_or_eq_true (patternDetected text p) with h1 | h1 <;>
    rcases Bool.eq_false_or_eq_true (bandFires amount text p) with h2 | h2 <;>
      simp only [h1, h2, Bool.false_eq_true, eq_self_iff_true, if_true, if_false,
        ite_true, ite_false]

theorem scamStep_bounds {amount : ℚ} {text : Str} {p : ScamPattern} {st : ScanState}
    (h : 0 ≤ st.fraudScore ∧ st.fraudScore ≤ 95) :
    0 ≤ (scamStep amount text st p).fraudScore ∧
      (scamStep amount text st p).fraudScore ≤ 95 := by
  have hc95 := patternConfidence_le_95 text p
  rw [scamStep_score amount text p st]
  constructor
  · split
    · exact le_trans (by norm_num) (le_max_right _ _)
    · split
      · exact le_trans h.1 (le_max_left _ _)
      · exact h.1
  · split
    · refine max_le ?_ (by norm_num)
      split
      · exact max_le h.2 hc95
      · exact h.2
    · split
      · exact max_le h.2 hc95
      · exact h.2

theorem afterPatterns_bounds (amount : ℚ) (text : Str) :
    0 ≤ (afterPatterns amount text).fraudScore ∧
      (afterPatterns amount text).fraudScore ≤ 95 := by
  have haux : ∀ (ps : List ScamPattern) (st : ScanState),
      0 ≤ st.fraudScore ∧ st.fraudScore ≤ 95 →
      0 ≤ (ps.foldl (scamStep amount text) st).fraudScore ∧
        (ps.foldl (scamStep amount text) st).fraudScore ≤ 95 := by
    intro ps
    induction ps with
    | nil => intro st h; exact h
    | cons p ps ih =>
      intro st h
      rw [List.foldl_cons]
      exact ih _ (scamStep_bounds h)
  exact haux SCAM_PATTERNS ⟨0, [], []⟩ ⟨le_refl 0, by norm_num⟩

theorem afterAge_bounds {age : Option ℕ} {st : ScanState}
    (h : 0 ≤ st.fraudScore ∧ st.fraudScore ≤ 95) :
    0 ≤ (afterAge age st).fraudScore ∧ (afterAge age st).fraudScore ≤ 95 := by
  unfold afterAge
  split
  · constructor
    · exact le_min (mul_nonneg h.1 (by norm_num)) (by norm_num)
    · exact min_le_right _ _
  · exact h

theorem afterUrgency_bounds {text : Str} {st : ScanState}
    (h : 0 ≤ st.fraudScore ∧ st.fraudScore ≤ 95) :
    0 ≤ (afterUrgency text st).fraudScore ∧ (afterUrgency text st).fraudScore ≤ 95 := by
  unfold afterUrgency
  split
  · exact ⟨le_min (by linarith [h.1]) (by norm_num), min_le_right _ _⟩
  · exact h

theorem afterRound_bounds {amount : ℚ} {st : ScanState}
    (h : 0 ≤ st.fraudScore ∧ st.fraudScore ≤ 95) :
    0 ≤ (afterRound amount st).fraudScore ∧ (afterRound amount st).fraudScore ≤ 95 := by
  unfold afterRound
  split
  · exact ⟨le_min (by linarith [h.1]) (by norm_num), min_le_right _ _⟩
  · exact h

theorem finalScore_bounds (amount : ℚ) (text : Str) (age : Option ℕ) :
    0 ≤ finalScore amount text age ∧ finalScore amount text age ≤ 95 := by
  unfold finalScore
  exact afterRound_bounds (afterUrgency_bounds (afterAge_bounds (afterPatterns_bounds amount text)))

theorem jsRound_bounds {q : ℚ} (h0 : 0 ≤ q) (h95 : q ≤ 95) :
    0 ≤ jsRound q ∧ jsRound q ≤ 95 := by
  unfold jsRound
  constructor
  · exact Int.floor_nonneg.mpr (by linarith)
  · have hlt : ⌊q + 1 / 2⌋ < 96 := by
      rw [Int.floor_lt]
      push_cast
      linarith
    omega

/-- C10: the integer `fraudScore` returned by the scorer always lies in
`0..95`: every confidence is capped at 95 and every later adjustment
re-caps at 95, so 96-100 is never returned. -/
theorem c10_score_range (amount : ℚ) (rem nm : Str) (age : Option ℕ) :
    0 ≤ (analyzeFraud amount rem nm age).fraudScore ∧
      (analyzeFraud amount rem nm age).fraudScore ≤ 95 := by
  have hb := finalScore_bounds amount (fraudTextOf rem nm) age
  show 0 ≤ jsRound (finalScore amount (fraudTextOf rem nm) age) ∧
    jsRound (finalScore amount (fraudTextOf rem nm) age) ≤ 95
  exact jsRound_bounds hb.1 hb.2

/-! ## Claim C5: per-pattern confidence, detection threshold, order, and
max-combination of the running score -/

theorem afterAge_detected (age : Option ℕ) (st : ScanState) :
    (afterAge age st).detectedScams = st.detectedScams := by
  unfold afterAge
  split <;> rfl

theorem afterUrgency_detected (text : Str) (st : ScanState) :
    (afterUrgency text st).detectedScams = st.detectedScams := by
  unfold afterUrgency
  split <;> rfl

theorem afterRound_detected (amount : ℚ) (st : ScanState) :
    (afterRound amount st).detectedScams = st.detectedScams := by
  unfold afterRound
  split <;> rfl

theorem scamStep_detected (amount : ℚ) (text : Str) (p : ScamPattern) (st : ScanState) :
    (scamStep amount text st p).detectedScams
      = st.detectedScams ++ (if patternDetected text p then [mkDetected text p] else []) := by
  unfold scamStep
  rcases Bool.eq_false_or_eq_true (patternDetected text p) with h1 | h1 <;>
    rcases Bool.eq_false_or_eq_true (bandFires amount text p) with h2 | h2 <;>
      simp only [h1, h2, Bool.false_eq_true, if_true, if_false, ite_true, ite_false] <;>
      simp

theorem foldl_scamStep_detected (amount : ℚ) (text : Str) :
    ∀ (ps : List ScamPattern) (st : ScanState),
    (ps.foldl (scamStep amount text) st).detectedScams
      = st.detectedScams ++ (ps.filter (patternDetected text)).map (mkDetected text) := by
  intro ps
  induction ps with
  | nil => intro st; simp
  | cons p ps ih =>
    intro st
    rw [List.foldl_cons, ih, scamStep_detected, List.filter_cons]
    rcases Bool.eq_false_or_eq_true (patternDetected text p) with h1 | h1 <;>
      simp [h1, List.append_assoc]

/-- The `detectedScams` result equals the catalog filtered by the detection
guard, in catalog order. -/
theorem analyzeFraud_detectedScams (amount : ℚ) (rem nm : Str) (age : Option ℕ) :
    (analyzeFraud amount rem nm age).detectedScams
      = (SCAM_PATTERNS.filter (patternDetected (fraudTextOf rem nm))).map
          (mkDetected (fraudTextOf rem nm)) := by
  show (afterRound amount (afterUrgency (fraudTextOf rem nm)
      (afterAge age (afterPatterns amount (fraudTextOf rem nm))))).detectedScams = _
  rw [afterRound_detected, afterUrgency_detected, afterAge_detected]
  unfold afterPatterns
  rw [foldl_scamStep_detected]
  simp

theorem foldl_scamStep_score_decomp (amount : ℚ) (text : Str) :
    ∀ (ps : List ScamPattern) (a b : ℚ) (st : ScanState), st.fraudScore = max a b →
    (ps.foldl (scamStep amount text) st).fraudScore =
      max (ps.foldl (fun s p => if patternDetected text p then
            max s (patternConfidence text p) else s) a)
          (ps.foldl (fun s p => if bandFires amount text p then max s 70 else s) b) := by
  intro ps
  induction ps with
  | nil =>
    intro a b st h
    simpa using h
  | cons p ps ih =>
    intro a b st h
    rw [List.foldl_cons, List.foldl_cons, List.foldl_cons]
    refine ih _ _ _ ?_
    rw [scamStep_score amount text p st, h]
    split
    · split
      · simp [max_assoc, max_comm, max_left_comm]
      · simp [max_assoc, max_comm, max_left_comm]
    · split
      · simp [max_assoc, max_comm, max_left_comm]
      · rfl

/-- The full pattern loop's score is the `max` of the detection-only and
band-only folds. -/
theorem afterPatterns_score_decomp (amount : ℚ) (text : Str) :
    (afterPatterns amount text).fraudScore
      = max (detectionScore text) (bandScoreQ amount text) := by
  unfold afterPatterns detectionScore bandScoreQ
  exact foldl_scamStep_score_decomp amount text SCAM_PATTERNS 0 0 ⟨0, [], []⟩ (by norm_num)

theorem foldl_if_max_filter (f : ScamPattern → ℚ) (q : ScamPattern → Bool) :
    ∀ (ps : List ScamPattern) (s : ℚ),
    ps.foldl (fun s p => if q p then max s (f p) else s) s
      = ((ps.filter q).map f).foldl max s := by
  intro ps
  induction ps with
  | nil => intro s; rfl
  | cons p ps ih =>
    intro s
    rw [List.foldl_cons, List.filter_cons]
    rcases Bool.eq_false_or_eq_true (q p) with hq | hq <;>
      simp only [hq, Bool.false_eq_true, if_true, if_false, ite_true, ite_false,
        List.map_cons, List.foldl_cons] <;>
      first
        | exact ih s
        | exact ih (max s (f p))

/-- Within the catalog, a pattern is determined by its scam name. -/
theorem scamPattern_name_inj :
    ∀ p ∈ SCAM_PATTERNS, ∀ q ∈ SCAM_PATTERNS, p.name = q.name → p = q := by
  intro p hp q hq h
  fin_cases hp <;> fin_cases hq <;>
    first
      | rfl
      | exact absurd h (by decide)

/-- C5: for every input and every pattern with at least one matched trigger,
the per-pattern confidence is `min(matchCount / totalKeywords * 100, 95)`;
the pattern enters `detectedScams` exactly when the confidence reaches
`confidenceThreshold * 100`; `detectedScams` is the catalog filtered by that
guard in evaluation order; and the running score contributed by the
keyword-detection step is the maximum of the detected confidences (joined
by `max`, not summed, with the loop's total score being the `max` of the
detection fold and the amount-band fold). -/
theorem c5_pattern_step (amount : ℚ) (rem nm : Str) (age : Option ℕ) :
    (∀ p ∈ SCAM_PATTERNS, 0 < (matchedTriggers (fraudTextOf rem nm) p).length →
      patternConfidence (fraudTextOf rem nm) p =
        min (((matchedTriggers (fraudTextOf rem nm) p).length : ℚ) /
          ((p.triggerWords.length : ℚ)) * 100) 95) ∧
    (analyzeFraud amount rem nm age).detectedScams
      = (SCAM_PATTERNS.filter (patternDetected (fraudTextOf rem nm))).map
          (mkDetected (fraudTextOf rem nm)) ∧
    (∀ p ∈ SCAM_PATTERNS, 0 < (matchedTriggers (fraudTextOf rem nm) p).length →
      (mkDetected (fraudTextOf rem nm) p ∈ (analyzeFraud amount rem nm age).detectedScams ↔
        p.confidenceThreshold * 100 ≤ patternConfidence (fraudTextOf rem nm) p)) ∧
    (afterPatterns amount (fraudTextOf rem nm)).fraudScore
      = max (detectionScore (fraudTextOf rem nm)) (bandScoreQ amount (fraudTextOf rem nm)) ∧
    detectionScore (fraudTextOf rem nm)
      = (((analyzeFraud amount rem nm age).detectedScams.map (·.confidence)).foldl max 0) := by
  refine ⟨fun p _ _ => rfl, analyzeFraud_detectedScams amount rem nm age, ?_,
    afterPatterns_score_decomp amount (fraudTextOf rem nm), ?_⟩
  · intro p hp hn
    constructor
    · intro hmem
      rw [analyzeFraud_detectedScams] at hmem
      obtain ⟨q, hqf, hmk⟩ := List.mem_map.mp hmem
      have hqmem : q ∈ SCAM_PATTERNS := List.mem_of_mem_filter hqf
      have hqdet : patternDetected (fraudTextOf rem nm) q = true := List.of_mem_filter hqf
      have hname : q.name = p.name := by
        have := congrArg DetectedScam.name hmk
        simpa [mkDetected] using this
      have hqp : q = p := scamPattern_name_inj q hqmem p hp hname
      subst hqp
      simp [patternDetected] at hqdet
      exact hqdet.2
    · intro hconf
      rw [analyzeFraud_detectedScams]
      refine List.mem_map.mpr ⟨p, List.mem_filter.mpr ⟨hp, ?_⟩, rfl⟩
      simp [patternDetected]
      exact ⟨hn, hconf⟩
  · rw [analyzeFraud_detectedScams]
    unfold detectionScore
    rw [foldl_if_max_filter]
    have hmapmap :
        ((SCAM_PATTERNS.filter (patternDetected (fraudTextOf rem nm))).map
            (mkDetected (fraudTextOf rem nm))).map (·.confidence)
          = (SCAM_PATTERNS.filter (patternDetected (fraudTextOf rem nm))).map
              (patternConfidence (fraudTextOf rem nm)) := by
      rw [List.map_map]
      rfl
    rw [hmapmap]

/-- C5 witness: five matched IRS keywords on a concrete input. -/
theorem c5_pattern_step_witness :
    (SCAM_PATTERNS.headD ⟨[], [], 0, 0, 0, [], []⟩) ∈ SCAM_PATTERNS ∧
    0 < (matchedTriggers (fraudTextOf (s2l ( "irs tax penalty arrest warrant")) [])
      (SCAM_PATTERNS.headD ⟨[], [], 0, 0, 0, [], []⟩)).length ∧
    patternConfidence (fraudTextOf (s2l ( "irs tax penalty arrest warrant")) [])
        (SCAM_PATTERNS.headD ⟨[], [], 0, 0, 0, [], []⟩) =
      min (((matchedTriggers (fraudTextOf (s2l ( "irs tax penalty arrest warrant")) [])
          (SCAM_PATTERNS.headD ⟨[], [], 0, 0, 0, [], []⟩)).length : ℚ) /
        (((SCAM_PATTERNS.headD ⟨[], [], 0, 0, 0, [], []⟩).triggerWords.length : ℚ)) * 100) 95 ∧
    (analyzeFraud 50 (s2l ( "irs tax penalty arrest warrant")) [] none).detectedScams
      = (SCAM_PATTERNS.filter
          (patternDetected (fraudTextOf (s2l ( "irs tax penalty arrest warrant")) []))).map
          (mkDetected (fraudTextOf (s2l ( "irs tax penalty arrest warrant")) [])) := by
  have h := c5_pattern_step 50 (s2l ( "irs tax penalty arrest warrant")) [] none
  refine ⟨List.mem_cons_self _ _, by decide, ?_, h.2.1⟩
  exact h.1 _ (List.mem_cons_self _ _) (by decide)

/-! ## Claim C2: determinism of the scorer -/

theorem le_foldl_if_max (f : ScamPattern → ℚ) (q : ScamPattern → Bool) :
    ∀ (ps : List ScamPattern) (s : ℚ),
      s ≤ ps.foldl (fun s p => if q p then max s (f p) else s) s := by
  intro ps
  induction ps with
  | nil => intro s; exact le_refl s
  | cons p ps ih =>
    intro s
    rw [List.foldl_cons]
    have hstep : s ≤ (if q p then max s (f p) else s) := by
      split
      · exact le_max_left _ _
      · exact le_refl s
    exact le_trans hstep (ih _)

theorem afterAge_none (st : ScanState) : afterAge none st = st := by
  simp [afterAge, ageCond]

/-- The IRS pattern matches five triggers on the text
`irs tax penalty arrest warrant`, crossing its detection threshold. -/
theorem irs_detected_on_five :
    patternDetected (fraudTextOf (s2l ( "irs tax penalty arrest warrant")) [])
      (SCAM_PATTERNS.headD ⟨[], [], 0, 0, 0, [], []⟩) = true := by
  have hlen5 : (matchedTriggers (fraudTextOf (s2l ( "irs tax penalty arrest warrant")) [])
      (SCAM_PATTERNS.headD ⟨[], [], 0, 0, 0, [], []⟩)).length = 5 := by decide
  have h8 : (SCAM_PATTERNS.headD ⟨[], [], 0, 0, 0, [], []⟩).triggerWords.length = 8 := by
    decide
  have hthr : (SCAM_PATTERNS.headD ⟨[], [], 0, 0, 0, [], []⟩).confidenceThreshold
      = (0.6 : ℚ) := rfl
  have hconf : patternConfidence (fraudTextOf (s2l ( "irs tax penalty arrest warrant")) [])
      (SCAM_PATTERNS.headD ⟨[], [], 0, 0, 0, [], []⟩) = 125 / 2 := by
    unfold patternConfidence
    rw [hlen5, h8]
    norm_num [min_def]
  unfold patternDetected
  rw [hlen5, hconf, hthr]
  rw [decide_eq_true (by norm_num : (0.6 : ℚ) * 100 ≤ (125 : ℚ) / 2)]
  simp

/-- On the text `irs tax penalty arrest warrant` the IRS pattern has
confidence 62.5, so after the loop the detection list is nonempty and the
running score is at least 50: the AI block's guard fires. -/
theorem ai_guard_fires :
    (decide ((50 : ℚ) ≤
        (afterPatterns 50 (fraudTextOf (s2l ( "irs tax penalty arrest warrant")) [])).fraudScore)
      && decide (0 <
        (afterPatterns 50 (fraudTextOf (s2l ( "irs tax penalty arrest warrant")) [])).detectedScams.length)
      && true) = true := by
  have hconf : patternConfidence (fraudTextOf (s2l ( "irs tax penalty arrest warrant")) [])
      (SCAM_PATTERNS.headD ⟨[], [], 0, 0, 0, [], []⟩) = 125 / 2 := by
    have hlen5 : (matchedTriggers (fraudTextOf (s2l ( "irs tax penalty arrest warrant")) [])
        (SCAM_PATTERNS.headD ⟨[], [], 0, 0, 0, [], []⟩)).length = 5 := by decide
    have h8 : (SCAM_PATTERNS.headD ⟨[], [], 0, 0, 0, [], []⟩).triggerWords.length = 8 := by
      decide
    unfold patternConfidence
    rw [hlen5, h8]
    norm_num [min_def]
  have hsplit : SCAM_PATTERNS
      = (SCAM_PATTERNS.headD ⟨[], [], 0, 0, 0, [], []⟩) :: SCAM_PATTERNS.tail := rfl
  have hds : (afterPatterns 50 (fraudTextOf (s2l ( "irs tax penalty arrest warrant")) [])).detectedScams ≠ [] := by
    unfold afterPatterns
    rw [foldl_scamStep_detected, hsplit, List.filter_cons, irs_detected_on_five]
    simp
  have hscore : (50 : ℚ) ≤
      (afterPatterns 50 (fraudTextOf (s2l ( "irs tax penalty arrest warrant")) [])).fraudScore := by
    rw [afterPatterns_score_decomp]
    have hdsge : (125 / 2 : ℚ)
        ≤ detectionScore (fraudTextOf (s2l ( "irs tax penalty arrest warrant")) []) := by
      unfold detectionScore
      rw [hsplit, List.foldl_cons, irs_detected_on_five]
      simp only [if_true, ite_true]
      refine le_trans ?_ (le_foldl_if_max _ _ _ _)
      rw [hconf]
      exact le_trans (le_max_right _ _) (le_refl _)
    exact le_trans (by norm_num) (le_trans hdsge (le_max_left _ _))
  rw [decide_eq_true hscore, decide_eq_true (List.length_pos.mpr hds)]
  rfl

/-- C2 counterexample: two runs of the full scorer on identical
`(amount, remittanceInfo, recipientName, customerAge)` with OpenAI
credentials configured, differing only in the externally produced
`enhanceWithAI` outcome, return different `signals` lists: the claim's
assertion that the returned signals are always identical fails once the AI
block runs. -/
theorem c2_counterexample :
    (analyzeFraudWithAI 50 (s2l ( "irs tax penalty arrest warrant")) [] none true
        (some [s2l ( "Authority impersonation detected")])).signals
      ≠ (analyzeFraudWithAI 50 (s2l ( "irs tax penalty arrest warrant")) [] none true
          none).signals := by
  have hurg : ∀ st : ScanState,
      afterUrgency (fraudTextOf (s2l ( "irs tax penalty arrest warrant")) []) st = st := by
    intro st
    have hw : (urgencyWords.any
        (fun w => strContains (fraudTextOf (s2l ( "irs tax penalty arrest warrant")) []) w))
        = false := by decide
    simp [afterUrgency, hw]
  have hrnd : ∀ st : ScanState, afterRound 50 st = st := by
    intro st
    have hc : decide ((1000 : ℚ) ≤ (50 : ℚ)) = false := decide_eq_false (by norm_num)
    simp [afterRound, hc]
  simp only [analyzeFraudWithAI]
  rw [afterAge_none, hurg, hrnd, ai_guard_fires]
  simp only [if_true, ite_true]
  intro hcontra
  have hlen := congrArg List.length hcontra
  simp at hlen

/-- C2 (amended): for every pair of runs on identical
`(amount, remittanceInfo, recipientName, customerAge)`, the returned
`fraudScore`, `fraudFlag` and `detectedScams` are identical regardless of
the AI-enhancement outcome (they always equal the rule-based baseline,
since `enhanceWithAI`'s `adjustedScore` is always `undefined`); and
whenever the AI block does not run — in particular when no credentials are
configured, so no external call is made — the returned `signals` are the
baseline's as well, hence identical between runs. -/
theorem c2_determinism_amended (amount : ℚ) (rem nm : Str) (age : Option ℕ)
    (aiConfigured : Bool) (aiResp : Option (List Str)) :
    (analyzeFraudWithAI amount rem nm age aiConfigured aiResp).fraudScore
      = (analyzeFraud amount rem nm age).fraudScore ∧
    (analyzeFraudWithAI amount rem nm age aiConfigured aiResp).fraudFlag
      = (analyzeFraud amount rem nm age).fraudFlag ∧
    (analyzeFraudWithAI amount rem nm age aiConfigured aiResp).detectedScams
      = (analyzeFraud amount rem nm age).detectedScams ∧
    (aiConfigured = false →
      (analyzeFraudWithAI amount rem nm age aiConfigured aiResp).signals
        = (analyzeFraud amount rem nm age).signals) := by
  refine ⟨rfl, rfl, rfl, ?_⟩
  intro hoff
  subst hoff
  simp [analyzeFraudWithAI, analyzeFraud, Bool.and_false]

/-- C2 witness: with no credentials configured, the run agrees with the
baseline on every component, whatever the (never consulted) external
response would have been. -/
theorem c2_determinism_amended_witness :
    (analyzeFraudWithAI 2500 (s2l ( "Monthly Support")) (s2l ( "Mary Johnson")) (some 72)
        false (some [s2l ( "External signal")])).signals
      = (analyzeFraud 2500 (s2l ( "Monthly Support")) (s2l ( "Mary Johnson")) (some 72)).signals ∧
    (analyzeFraudWithAI 2500 (s2l ( "Monthly Support")) (s2l ( "Mary Johnson")) (some 72)
        false (some [s2l ( "External signal")])).fraudScore
      = (analyzeFraud 2500 (s2l ( "Monthly Support")) (s2l ( "Mary Johnson")) (some 72)).fraudScore ∧
    (analyzeFraudWithAI 2500 (s2l ( "Monthly Support")) (s2l ( "Mary Johnson")) (some 72)
        false (some [s2l ( "External signal")])).detectedScams
      = (analyzeFraud 2500 (s2l ( "Monthly Support")) (s2l ( "Mary Johnson")) (some 72)).detectedScams :=
  ⟨(c2_determinism_amended 2500 (s2l ( "Monthly Support")) (s2l ( "Mary Johnson")) (some 72)
      false (some [s2l ( "External signal")])).2.2.2 rfl,
   (c2_determinism_amended 2500 (s2l ( "Monthly Support")) (s2l ( "Mary Johnson")) (some 72)
      false (some [s2l ( "External signal")])).1,
   (c2_determinism_amended 2500 (s2l ( "Monthly Support")) (s2l ( "Mary Johnson")) (some 72)
      false (some [s2l ( "External signal")])).2.2.1⟩

end SafePay

